import Mathlib

/-!
Verification of the WIPEOUT-REBORN content-reorganization scripts.

The Python sources (`reorganize_unreal_content.py`, `reorganize_simple.py`,
`quick_create_folders.py`, `cleanup_after_reorganization.py`) are shallowly
embedded here.  The external Unreal asset store (asset registry +
EditorAssetLibrary) is modelled as a record of query functions; mutating
primitives (rename, make-directory, delete, consolidate) are recorded as an
explicit event trace so that claims about "zero mutation calls" or "one
consolidation call" become statements about that trace.
-/

namespace Wipeout

/-! ## String utilities

Python string operations used by the scripts, implemented structurally on
`List Char` so that they evaluate by kernel reduction.
-/

/-- Here `isPrefixChars p s = true` iff `p` is a prefix of `s` (Python `s.startswith(p)`). -/
def isPrefixChars : List Char → List Char → Bool
  | [], _ => true
  | _ :: _, [] => false
  | p :: ps, c :: cs => p == c && isPrefixChars ps cs

/-- Here `containsSub s pat = true` iff `pat` occurs as a contiguous substring of `s`. -/
def containsSub : List Char → List Char → Bool
  | [], pat => isPrefixChars pat []
  | c :: cs, pat => isPrefixChars pat (c :: cs) || containsSub cs pat

/-- Python's `pat in s` substring test. -/
def strContains (s pat : String) : Bool :=
  containsSub s.data pat.data

/-- If `pat` is a prefix of `s`, return the remainder of `s`, else `none`. -/
def dropPrefixChars : List Char → List Char → Option (List Char)
  | [], s => some s
  | _ :: _, [] => none
  | p :: ps, c :: cs => if p == c then dropPrefixChars ps cs else none

/-- Fuelled worker for `replaceAll`; fuel bounds the number of characters consumed. -/
def replaceAllAux : Nat → List Char → List Char → List Char → List Char
  | 0, s, _, _ => s
  | _ + 1, [], _, _ => []
  | fuel + 1, c :: cs, pat, rep =>
    match dropPrefixChars pat (c :: cs) with
    | some rest =>
      if pat.isEmpty then c :: replaceAllAux fuel cs pat rep
      else rep ++ replaceAllAux fuel rest pat rep
    | none => c :: replaceAllAux fuel cs pat rep

/-- Python's `s.replace(pat, rep)`: replace every (left-to-right, non-overlapping)
occurrence of the non-empty pattern `pat` in `s` by `rep`. -/
def replaceAll (s pat rep : String) : String :=
  ⟨replaceAllAux (s.data.length + 1) s.data pat.data rep.data⟩

/-- Python's `s.lstrip(c)` for a single strip character. -/
def lstripChar (s : String) (c : Char) : String :=
  ⟨s.data.dropWhile (· == c)⟩

/-- Python's `s.lower()` (ASCII case folding, as used on asset names). -/
def lowerStr (s : String) : String :=
  ⟨s.data.map Char.toLower⟩

/-! ## Data model

`AssetRecord` is the read-only projection of the store's asset data that the
scripts consult (spec §3): `package_name`, `asset_name`, `asset_class`.
`Event` records each call to a mutating primitive of the external store.
-/

structure AssetRecord where
  package_name : String
  asset_name : String
  asset_class : String
  deriving DecidableEq, Repr

/-- One call to a mutating primitive of the external asset store. -/
inductive Event where
  | rename (source target : String)
  | mkdir (path : String)
  | delete (path : String)
  | consolidate (target : String) (assets : List String)
  deriving DecidableEq, Repr

/-! ## Blueprint classifier

`reorganize_unreal_content.py`, lines 49-53 (`bp_classification`) and
133-141 (`classify_blueprint`).  The Python dict iterates in insertion
order, so the rules are an ordered association list here.
-/

/-- The ordered classification rules (`self.bp_classification`, lines 49-53). -/
def bp_classification : List (String × List String) :=
  [ ("player", ["player", "character", "pawn", "controller"]),
    ("gameplay", ["platform", "checkpoint", "exit", "bouncy", "lava"]),
    ("environment", ["light", "sky", "atmosphere", "fog", "cloud"]) ]

/-- The per-rule test of `classify_blueprint` (line 138):
`any(keyword in asset_name_lower for keyword in keywords)` applied to the
lower-cased name. -/
def rule_matches (asset_name : String) (rule : String × List String) : Bool :=
  rule.2.any (fun keyword => strContains (lowerStr asset_name) keyword)

/-- Embedding of `ContentReorganizer.classify_blueprint` (lines 133-141): lower-case the
name, return the first category one of whose keywords occurs in it,
defaulting to `"gameplay"`. -/
def classify_blueprint (asset_name : String) : String :=
  match bp_classification.find? (rule_matches asset_name) with
  | some rule => rule.1
  | none => "gameplay"

/-! ## Simple mover

`reorganize_simple.py`, lines 25-94 (`SimpleReorganizer.get_all_assets_in_path`,
`move_asset`, `move_folder_contents`).  The store exposes the query
primitives; `renameOk source target` is the combined outcome of the
`rename_asset` call at line 41: `true` for a successful rename, `false` when
the call returns failure or raises (both are turned into a `False` return by
the `try`/`except` of `move_asset`).  Every call of the rename primitive is
recorded as an `Event.rename`, whatever its outcome.
-/

structure Store where
  dirExists : String → Bool
  assetsUnder : String → List AssetRecord
  renameOk : String → String → Bool

/-- Embedding of `SimpleReorganizer.move_asset` (lines 34-49): in dry-run mode print only
and report success without touching the store; otherwise call the rename
primitive once and report its outcome (an exception counts as failure). -/
def move_asset (store : Store) (source_path target_path : String) (dry_run : Bool) :
    Bool × List Event :=
  if dry_run then (true, [])
  else (store.renameOk source_path target_path, [Event.rename source_path target_path])

/-- Target-path computation of `move_folder_contents` (lines 77-84):
`relative_path = source_path.replace(source_folder, '').lstrip('/')`, then
`target_folder/relative_path`, or `target_folder/asset_name` when the
relative path is empty. -/
def target_path_for (source_folder target_folder : String) (a : AssetRecord) : String :=
  let relative_path := lstripChar (replaceAll a.package_name source_folder "") '/'
  if relative_path ≠ "" then target_folder ++ "/" ++ relative_path
  else target_folder ++ "/" ++ a.asset_name

/-- Loop body of `move_folder_contents` (lines 73-91), accumulating the
`moved` and `failed` lists and the mutation-event trace. -/
def mfc_step (store : Store) (source_folder target_folder : String) (dry_run : Bool)
    (acc : List String × List String × List Event) (a : AssetRecord) :
    List String × List String × List Event :=
  let (moved, failed, evs) := acc
  let source_path := a.package_name
  let tp := target_path_for source_folder target_folder a
  let r := move_asset store source_path tp dry_run
  if r.1 then (moved ++ [source_path], failed, evs ++ r.2)
  else (moved, failed ++ [source_path], evs ++ r.2)

/-- Result of `move_folder_contents`: the returned pair
`(len(failed)==0, moved)` plus the internal `failed` accumulator and the
trace of mutation calls. -/
structure MoveResult where
  ok : Bool
  moved : List String
  failed : List String
  events : List Event
  deriving DecidableEq, Repr

/-- Embedding of `SimpleReorganizer.move_folder_contents` (lines 51-94): bail out when the
source folder does not exist or holds no assets, otherwise attempt to move
every asset and return `(len(failed)==0, moved)`. -/
def move_folder_contents (store : Store) (source_folder target_folder : String)
    (dry_run : Bool) : MoveResult :=
  if store.dirExists source_folder = false then ⟨false, [], [], []⟩
  else
    let all_assets := store.assetsUnder source_folder
    if all_assets.isEmpty then ⟨true, [], [], []⟩
    else
      let acc := all_assets.foldl (mfc_step store source_folder target_folder dry_run) ([], [], [])
      ⟨acc.2.1.isEmpty, acc.1, acc.2.1, acc.2.2⟩

/-! ## Folder ensurer

`quick_create_folders.py`, lines 14-97 (`create_folder_structure`), and the
same pattern at `reorganize_unreal_content.py` lines 110-131.  The directory
state of the external store is a predicate `dirs`; `mkdirOk` is the success
value the store returns for a `make_directory` call on a given path.
-/

structure DirState where
  dirs : String → Bool
  mkdirOk : String → Bool

structure EnsureAcc where
  st : DirState
  created : List String
  existing : List String
  failed : List String
  events : List Event

/-- Loop body of `create_folder_structure` (lines 54-65): skip folders that
already exist, otherwise call `make_directory` (one `Event.mkdir` per call)
and record success or failure. -/
def ensure_step (acc : EnsureAcc) (folder : String) : EnsureAcc :=
  if acc.st.dirs folder then { acc with existing := acc.existing ++ [folder] }
  else if acc.st.mkdirOk folder then
    { acc with
      st := { acc.st with dirs := fun q => q == folder || acc.st.dirs q },
      created := acc.created ++ [folder],
      events := acc.events ++ [Event.mkdir folder] }
  else
    { acc with
      failed := acc.failed ++ [folder],
      events := acc.events ++ [Event.mkdir folder] }

/-- Embedding of `create_folder_structure` (quick_create_folders.py lines 14-97) run over
an arbitrary folder list against a directory state. -/
def create_folder_structure (folders : List String) (st : DirState) : EnsureAcc :=
  folders.foldl ensure_step ⟨st, [], [], [], []⟩

/-- The fixed folder list of `quick_create_folders.py` (lines 20-44). -/
def quick_folders : List String :=
  [ "/Game/Core", "/Game/Core/Blueprints", "/Game/Core/Blueprints/Player",
    "/Game/Core/Blueprints/Gameplay", "/Game/Core/Blueprints/Environment",
    "/Game/Core/Materials", "/Game/Core/Textures",
    "/Game/UI", "/Game/UI/VirtualJoystick", "/Game/UI/Widgets", "/Game/UI/HUD",
    "/Game/Levels", "/Game/Levels/Maps", "/Game/Levels/Sublevels",
    "/Game/External", "/Game/External/DBV" ]

/-! ## Cleanup sweep

`cleanup_after_reorganization.py`: `fix_redirectors_in_folder` (lines 18-54),
`check_folder_empty` (lines 82-88) and `find_empty_folders` (lines 102-137).
`deleteOk path` records whether the `delete_asset` call at line 46 returns
normally (`true`) or raises (`false`); either way the call itself happens and
the surrounding `try`/`except: pass` swallows the failure, so one
`Event.delete` is recorded per redirector.
-/

structure CleanupStore where
  dirExists : String → Bool
  assetsUnder : String → List AssetRecord
  deleteOk : String → Bool

/-- The redirector filter of `fix_redirectors_in_folder` (lines 29-33):
records whose class tag contains `Redirector` or `ObjectRedirector`. -/
def redirectors_in (store : CleanupStore) (folder_path : String) : List String :=
  ((store.assetsUnder folder_path).filter
    (fun a => strContains a.asset_class "Redirector" ||
              strContains a.asset_class "ObjectRedirector")).map (·.package_name)

/-- Embedding of `ContentCleanup.fix_redirectors_in_folder` (lines 18-54): when the folder
exists and holds redirectors, consolidate them all into the first one found,
then attempt to delete each one (a raised delete is swallowed by
`except: pass`, so every delete is still attempted); returns the number of
redirectors found, paired with the trace of mutation calls. -/
def fix_redirectors_in_folder (store : CleanupStore) (folder_path : String) :
    Nat × List Event :=
  if store.dirExists folder_path = false then (0, [])
  else
    match redirectors_in store folder_path with
    | [] => (0, [])
    | r0 :: rest =>
      let reds := r0 :: rest
      let consolidation := [Event.consolidate r0 reds]
      let deletions := reds.foldl (fun evs r =>
        if store.deleteOk r then evs ++ [Event.delete r] else evs ++ [Event.delete r]) []
      (reds.length, consolidation ++ deletions)

/-- Embedding of `ContentCleanup.check_folder_empty` (lines 82-88): `none` when the folder
does not exist, otherwise whether its recursive listing is empty. -/
def check_folder_empty (store : CleanupStore) (folder_path : String) : Option Bool :=
  if store.dirExists folder_path = false then none
  else some ((store.assetsUnder folder_path).length == 0)

/-- Per-folder report of `find_empty_folders` (lines 117-135). -/
inductive FolderReport where
  | alreadyDeleted
  | emptyFolder
  | nonEmpty (count : Nat) (listed : List String)
  deriving DecidableEq, Repr

/-- The report `find_empty_folders` prints for one folder (lines 117-135):
for a non-empty folder it reports the asset count, and lists the first 10
asset names only when `0 < asset_count ≤ 10`. -/
def folder_report (store : CleanupStore) (folder : String) : FolderReport :=
  match check_folder_empty store folder with
  | none => .alreadyDeleted
  | some true => .emptyFolder
  | some false =>
    let assets := store.assetsUnder folder
    let asset_count := assets.length
    let listed :=
      if asset_count > 0 && asset_count ≤ 10 then (assets.take 10).map (·.asset_name)
      else []
    .nonEmpty asset_count listed

/-- The fixed folder list of `find_empty_folders` (lines 108-113). -/
def cleanup_folders_to_check : List String :=
  ["/Game/DBV", "/Game/Courses", "/Game/TopDown", "/Game/Input"]

/-- Embedding of `ContentCleanup.find_empty_folders` (lines 102-137): the list of checked
folders that exist and are empty. -/
def find_empty_folders (store : CleanupStore) : List String :=
  cleanup_folders_to_check.filter
    (fun folder => check_folder_empty store folder == some true)

/-! ## Blueprint mover

`reorganize_unreal_content.py`, lines 143-201
(`ContentReorganizer.move_blueprints`).  The registry query
`get_assets_by_class("Blueprint")` is `assetsByClass "Blueprint"`.
-/

structure RegistryStore where
  assetsByClass : String → List AssetRecord
  renameOk : String → String → Bool

/-- Result of `move_blueprints`: the returned `(moves, errors)` pair plus the
trace of mutation calls. -/
structure BpResult where
  moves : List (String × String × String)
  errors : List String
  events : List Event
  deriving DecidableEq, Repr

/-- Loop body of `move_blueprints` (lines 155-199): skip assets already under
`/DBV/`, `/External/` or the target taxonomy; classify the rest, append the
`(source, target, category)` plan, and, when not in dry-run mode, call the
rename primitive once and record a failure message if it fails. -/
def move_blueprints_step (store : RegistryStore) (dry_run : Bool)
    (acc : BpResult) (asset_data : AssetRecord) : BpResult :=
  let asset_path := asset_data.package_name
  let asset_name := asset_data.asset_name
  if strContains asset_path "/DBV/" || strContains asset_path "/External/" then acc
  else if ["Core/Blueprints", "UI/", "Levels/"].any (fun target => strContains asset_path target) then acc
  else
    let category := classify_blueprint asset_name
    let target_folder :=
      if category = "player" then "/Game/Core/Blueprints/Player"
      else if category = "gameplay" then "/Game/Core/Blueprints/Gameplay"
      else if category = "environment" then "/Game/Core/Blueprints/Environment"
      else "/Game/Core/Blueprints/Gameplay"
    let target_path := target_folder ++ "/" ++ asset_name
    let acc := { acc with moves := acc.moves ++ [(asset_path, target_path, category)] }
    if dry_run then acc
    else if store.renameOk asset_path target_path then
      { acc with events := acc.events ++ [Event.rename asset_path target_path] }
    else
      { acc with
        errors := acc.errors ++ ["Failed to move " ++ asset_path ++ " to " ++ target_path],
        events := acc.events ++ [Event.rename asset_path target_path] }

/-- Embedding of `ContentReorganizer.move_blueprints` (lines 143-201). -/
def move_blueprints (store : RegistryStore) (dry_run : Bool) : BpResult :=
  (store.assetsByClass "Blueprint").foldl (move_blueprints_step store dry_run) ⟨[], [], []⟩

/-! ## Orchestrators

`ContentReorganizer.execute_full_reorganization`
(`reorganize_unreal_content.py`, lines 302-348) is straight-line code; its
control flow is the fixed sequence of phase calls below.  The `__main__`
block of `reorganize_simple.py` (lines 278-291) is likewise a fixed sequence
of actions.
-/

inductive Phase where
  | analyze
  | createFolders
  | moveBlueprints
  | moveDbv
  | moveMaps
  | report
  deriving DecidableEq, Repr

/-- The sequence of phase calls in `execute_full_reorganization` (lines
314-331): analyze (line 315), create folders (line 318), move blueprints
(line 321), move DBV to External (line 324), move maps (line 327), and a
final report only when not in dry-run mode (lines 330-331). -/
def execute_full_reorganization_phases (dry_run : Bool) : List Phase :=
  [Phase.analyze, Phase.createFolders, Phase.moveBlueprints, Phase.moveDbv, Phase.moveMaps]
    ++ (if dry_run then [] else [Phase.report])

inductive MainAction where
  | printBanner (s : String)
  | executeReorganization (dry_run : Bool)
  deriving DecidableEq, Repr

/-- The `__main__` block of `reorganize_simple.py` (lines 278-291): print the
banner at line 282, then call `execute_reorganization(dry_run=False)` at
line 283 (the `dry_run=False` re-run at line 286 is commented out). -/
def reorganize_simple_main : List MainAction :=
  [MainAction.printBanner "Running in DRY RUN mode...",
   MainAction.executeReorganization false]

/-! ## Theorems -/

/-- C1: The blueprint classifier lower-cases the asset name, tests the
ordered rule list (player, gameplay, environment) and returns the first
category one of whose keywords occurs as a substring of the lowered name,
returning the default category "gameplay" when no keyword matches; in
particular `classify("PlayerController_BP") = "player"`,
`classify("Checkpoint_01") = "gameplay"`, `classify("Sky_Dome") =
"environment"` and `classify("Widget_Something") = "gameplay"`. -/
theorem classify_blueprint_ordered_first_match :
    classify_blueprint "PlayerController_BP" = "player" ∧
    classify_blueprint "Checkpoint_01" = "gameplay" ∧
    classify_blueprint "Sky_Dome" = "environment" ∧
    classify_blueprint "Widget_Something" = "gameplay" ∧
    (∀ name : String,
      (∀ rule ∈ bp_classification, rule_matches name rule = false) →
      classify_blueprint name = "gameplay") ∧
    (∀ (name : String) (i : Nat) (hi : i < bp_classification.length),
      rule_matches name (bp_classification.get ⟨i, hi⟩) = true →
      (∀ (j : Nat) (hj : j < i),
        rule_matches name (bp_classification.get ⟨j, Nat.lt_trans hj hi⟩) = false) →
      classify_blueprint name = (bp_classification.get ⟨i, hi⟩).1) := by
  refine ⟨by decide, by decide, by decide, by decide, ?_, ?_⟩
  · intro name h
    unfold classify_blueprint
    have hnone : bp_classification.find? (rule_matches name) = none :=
      List.find?_eq_none.mpr (by intro rule hrule; simp [h rule hrule])
    rw [hnone]
  · intro name i hi hmatch hprev
    have hi3 : i < 3 := by simpa [bp_classification] using hi
    interval_cases i
    · have hm : rule_matches name ("player", ["player", "character", "pawn", "controller"]) = true :=
        hmatch
      show classify_blueprint name = "player"
      unfold classify_blueprint bp_classification
      rw [List.find?_cons_of_pos _ hm]
    · have h0 : rule_matches name ("player", ["player", "character", "pawn", "controller"]) = false :=
        hprev 0 (by omega)
      have hm : rule_matches name
          ("gameplay", ["platform", "checkpoint", "exit", "bouncy", "lava"]) = true := hmatch
      show classify_blueprint name = "gameplay"
      unfold classify_blueprint bp_classification
      rw [List.find?_cons_of_neg _ (by simp [h0]), List.find?_cons_of_pos _ hm]
    · have h0 : rule_matches name ("player", ["player", "character", "pawn", "controller"]) = false :=
        hprev 0 (by omega)
      have h1 : rule_matches name
          ("gameplay", ["platform", "checkpoint", "exit", "bouncy", "lava"]) = false :=
        hprev 1 (by omega)
      have hm : rule_matches name
          ("environment", ["light", "sky", "atmosphere", "fog", "cloud"]) = true := hmatch
      show classify_blueprint name = "environment"
      unfold classify_blueprint bp_classification
      rw [List.find?_cons_of_neg _ (by simp [h0]), List.find?_cons_of_neg _ (by simp [h1]),
        List.find?_cons_of_pos _ hm]

/-- Witness for C1: the default branch of the classifier at the concrete
name "Zzz", whose lowered form contains no keyword of any rule. -/
theorem classify_blueprint_ordered_first_match_witness :
    (∀ rule ∈ bp_classification, rule_matches "Zzz" rule = false) ∧
    classify_blueprint "Zzz" = "gameplay" :=
  ⟨by decide, classify_blueprint_ordered_first_match.2.2.2.2.1 "Zzz" (by decide)⟩

/-- Whether the store accepts the rename of asset `a` computed by
`move_folder_contents store sf tf`. -/
def rename_ok_for (store : Store) (sf tf : String) (a : AssetRecord) : Bool :=
  store.renameOk a.package_name (target_path_for sf tf a)

theorem mfc_step_dry (store : Store) (sf tf : String)
    (acc : List String × List String × List Event) (a : AssetRecord) :
    mfc_step store sf tf true acc a = (acc.1 ++ [a.package_name], acc.2.1, acc.2.2 ++ []) := by
  obtain ⟨m, f, e⟩ := acc
  rfl

theorem mfc_foldl_dry (store : Store) (sf tf : String) (l : List AssetRecord) :
    ∀ acc : List String × List String × List Event,
      l.foldl (mfc_step store sf tf true) acc =
        (acc.1 ++ l.map (·.package_name), acc.2.1, acc.2.2) := by
  induction l with
  | nil => intro acc; simp
  | cons a l ih =>
    intro acc
    rw [List.foldl_cons, ih, mfc_step_dry]
    simp

theorem mfc_foldl_live (store : Store) (sf tf : String) (l : List AssetRecord) :
    ∀ acc : List String × List String × List Event,
      l.foldl (mfc_step store sf tf false) acc =
        (acc.1 ++ (l.filter (rename_ok_for store sf tf)).map (·.package_name),
         acc.2.1 ++ (l.filter (fun a => ! rename_ok_for store sf tf a)).map (·.package_name),
         acc.2.2 ++ l.map (fun a => Event.rename a.package_name (target_path_for sf tf a))) := by
  induction l with
  | nil => intro acc; simp
  | cons a l ih =>
    intro acc
    obtain ⟨m, f, e⟩ := acc
    cases hok : rename_ok_for store sf tf a with
    | true =>
      have hok2 : store.renameOk a.package_name (target_path_for sf tf a) = true := hok
      have hstep : mfc_step store sf tf false (m, f, e) a =
          (m ++ [a.package_name], f,
           e ++ [Event.rename a.package_name (target_path_for sf tf a)]) := by
        simp [mfc_step, move_asset, hok2]
      rw [List.foldl_cons, hstep, ih]
      simp [List.filter_cons, hok]
    | false =>
      have hok2 : store.renameOk a.package_name (target_path_for sf tf a) = false := hok
      have hstep : mfc_step store sf tf false (m, f, e) a =
          (m, f ++ [a.package_name],
           e ++ [Event.rename a.package_name (target_path_for sf tf a)]) := by
        simp [mfc_step, move_asset, hok2]
      rw [List.foldl_cons, hstep, ih]
      simp [List.filter_cons, hok]

theorem move_folder_contents_cons (store : Store) (sf tf : String) (dr : Bool)
    (a : AssetRecord) (l : List AssetRecord)
    (hdir : store.dirExists sf = true) (hl : store.assetsUnder sf = a :: l) :
    move_folder_contents store sf tf dr =
      ⟨((a :: l).foldl (mfc_step store sf tf dr) ([], [], [])).2.1.isEmpty,
       ((a :: l).foldl (mfc_step store sf tf dr) ([], [], [])).1,
       ((a :: l).foldl (mfc_step store sf tf dr) ([], [], [])).2.1,
       ((a :: l).foldl (mfc_step store sf tf dr) ([], [], [])).2.2⟩ := by
  unfold move_folder_contents
  rw [hdir, hl]
  simp

theorem length_filter_add_length_filter_neg {α : Type} (p : α → Bool) (l : List α) :
    (l.filter p).length + (l.filter (fun a => ! p a)).length = l.length := by
  induction l with
  | nil => rfl
  | cons a l ih => cases h : p a <;> simp [List.filter_cons, h] <;> omega

theorem move_blueprints_step_dry_events (store : RegistryStore) (acc : BpResult)
    (a : AssetRecord) :
    (move_blueprints_step store true acc a).events = acc.events := by
  unfold move_blueprints_step
  by_cases h1 : (strContains a.package_name "/DBV/" ||
      strContains a.package_name "/External/") = true
  · simp [h1]
  · by_cases h2 : (["Core/Blueprints", "UI/", "Levels/"].any
        (fun target => strContains a.package_name target)) = true
    · simp [h1, h2]
    · simp [h1, h2]

theorem move_blueprints_foldl_dry_events (store : RegistryStore) (l : List AssetRecord) :
    ∀ acc : BpResult, (l.foldl (move_blueprints_step store true) acc).events = acc.events := by
  induction l with
  | nil => intro acc; rfl
  | cons a l ih =>
    intro acc
    rw [List.foldl_cons, ih, move_blueprints_step_dry_events]

/-- C2: In dry-run mode the mover never invokes the external rename
primitive (the mutation-event trace is empty) and reports every candidate
asset as a successful "would move" result; likewise `move_blueprints`
issues no mutation call in dry-run mode. -/
theorem move_folder_contents_dry_run_no_mutation (store : Store) (sf tf : String) :
    (move_folder_contents store sf tf true).events = [] ∧
    (store.dirExists sf = true →
      move_folder_contents store sf tf true =
        ⟨true, (store.assetsUnder sf).map (·.package_name), [], []⟩) ∧
    (∀ rstore : RegistryStore, (move_blueprints rstore true).events = []) := by
  refine ⟨?_, ?_, ?_⟩
  · cases hd : store.dirExists sf with
    | false => simp [move_folder_contents, hd]
    | true =>
      cases hl : store.assetsUnder sf with
      | nil => simp [move_folder_contents, hd, hl]
      | cons a l =>
        rw [move_folder_contents_cons store sf tf true a l hd hl, mfc_foldl_dry]
  · intro hd
    cases hl : store.assetsUnder sf with
    | nil => simp [move_folder_contents, hd, hl]
    | cons a l =>
      rw [move_folder_contents_cons store sf tf true a l hd hl, mfc_foldl_dry]
      simp
  · intro rstore
    unfold move_blueprints
    rw [move_blueprints_foldl_dry_events]

/-- Witness for C2: a concrete one-asset store in dry-run mode. -/
def c2_store : Store :=
  { dirExists := fun _ => true,
    assetsUnder := fun p =>
      if p == "/Game/DBV" then [⟨"/Game/DBV/X", "X", "Blueprint"⟩] else [],
    renameOk := fun _ _ => true }

theorem move_folder_contents_dry_run_no_mutation_witness :
    c2_store.dirExists "/Game/DBV" = true ∧
    move_folder_contents c2_store "/Game/DBV" "/Game/External/DBV" true =
      ⟨true, ["/Game/DBV/X"], [], []⟩ :=
  ⟨by decide,
   (move_folder_contents_dry_run_no_mutation c2_store "/Game/DBV" "/Game/External/DBV").2.1
     (by decide)⟩

/-- C3: In live mode, when the external rename fails for exactly one of the
candidate assets of the source folder, the result has exactly `N-1` moved
assets and exactly `1` failed asset, and every one of the `N` candidates is
attempted (the trace holds one rename call per candidate, in order). -/
theorem move_folder_contents_live_one_failure (store : Store) (sf tf : String)
    (hdir : store.dirExists sf = true)
    (hone : ((store.assetsUnder sf).filter
        (fun a => ! rename_ok_for store sf tf a)).length = 1) :
    (move_folder_contents store sf tf false).failed.length = 1 ∧
    (move_folder_contents store sf tf false).moved.length =
      (store.assetsUnder sf).length - 1 ∧
    (move_folder_contents store sf tf false).events =
      (store.assetsUnder sf).map
        (fun a => Event.rename a.package_name (target_path_for sf tf a)) := by
  have hsum := length_filter_add_length_filter_neg (rename_ok_for store sf tf)
    (store.assetsUnder sf)
  cases hl : store.assetsUnder sf with
  | nil => rw [hl] at hone; simp at hone
  | cons a l =>
    rw [hl] at hone hsum
    rw [move_folder_contents_cons store sf tf false a l hdir hl, mfc_foldl_live]
    refine ⟨by simpa using hone, ?_, by simp⟩
    simp only [List.nil_append, List.length_map]
    omega

/-- Witness for C3: a concrete two-asset store whose rename primitive fails
for exactly the second asset. -/
def c3_store : Store :=
  { dirExists := fun p => p == "/Game/DBV",
    assetsUnder := fun p =>
      if p == "/Game/DBV" then
        [⟨"/Game/DBV/Good", "Good", "Texture"⟩, ⟨"/Game/DBV/Bad", "Bad", "Texture"⟩]
      else [],
    renameOk := fun s _ => ! (s == "/Game/DBV/Bad") }

theorem move_folder_contents_live_one_failure_witness :
    (c3_store.dirExists "/Game/DBV" = true ∧
      ((c3_store.assetsUnder "/Game/DBV").filter
        (fun a => ! rename_ok_for c3_store "/Game/DBV" "/Game/External/DBV" a)).length = 1) ∧
    (move_folder_contents c3_store "/Game/DBV" "/Game/External/DBV" false).failed.length = 1 ∧
    (move_folder_contents c3_store "/Game/DBV" "/Game/External/DBV" false).moved.length =
      (c3_store.assetsUnder "/Game/DBV").length - 1 ∧
    (move_folder_contents c3_store "/Game/DBV" "/Game/External/DBV" false).events =
      (c3_store.assetsUnder "/Game/DBV").map
        (fun a => Event.rename a.package_name
          (target_path_for "/Game/DBV" "/Game/External/DBV" a)) :=
  ⟨⟨by decide, by decide⟩,
   move_folder_contents_live_one_failure c3_store "/Game/DBV" "/Game/External/DBV"
     (by decide) (by decide)⟩

theorem ensure_step_events (acc : EnsureAcc) (f : String) :
    (ensure_step acc f).events = acc.events ∨
    (ensure_step acc f).events = acc.events ++ [Event.mkdir f] := by
  unfold ensure_step
  by_cases h1 : acc.st.dirs f = true
  · left; simp [h1]
  · by_cases h2 : acc.st.mkdirOk f = true
    · right; simp [h1, h2]
    · right; simp [h1, h2]

theorem ensure_foldl_dirs_mono (l : List String) :
    ∀ (acc : EnsureAcc) (x : String), acc.st.dirs x = true →
      (l.foldl ensure_step acc).st.dirs x = true := by
  induction l with
  | nil => intro acc x h; exact h
  | cons f l ih =>
    intro acc x h
    rw [List.foldl_cons]
    apply ih
    unfold ensure_step
    by_cases h1 : acc.st.dirs f = true
    · simp [h1, h]
    · by_cases h2 : acc.st.mkdirOk f = true
      · simp [h1, h2, h]
      · simp [h1, h2, h]

theorem ensure_foldl_failed_length_mono (l : List String) :
    ∀ acc : EnsureAcc, acc.failed.length ≤ (l.foldl ensure_step acc).failed.length := by
  induction l with
  | nil => intro acc; exact le_refl _
  | cons f l ih =>
    intro acc
    rw [List.foldl_cons]
    refine le_trans ?_ (ih (ensure_step acc f))
    unfold ensure_step
    by_cases h1 : acc.st.dirs f = true
    · simp [h1]
    · by_cases h2 : acc.st.mkdirOk f = true
      · simp [h1, h2]
      · simp [h1, h2]

theorem ensure_foldl_no_fail_dirs (l : List String) :
    ∀ acc : EnsureAcc,
      (l.foldl ensure_step acc).failed.length = acc.failed.length →
      ∀ f ∈ l, (l.foldl ensure_step acc).st.dirs f = true := by
  induction l with
  | nil => intro acc _ f hf; simp at hf
  | cons g l ih =>
    intro acc hlen f hf
    rw [List.foldl_cons] at hlen ⊢
    by_cases h1 : acc.st.dirs g = true
    · have hstep : ensure_step acc g = { acc with existing := acc.existing ++ [g] } := by
        unfold ensure_step; simp [h1]
      rcases List.mem_cons.mp hf with rfl | hf2
      · apply ensure_foldl_dirs_mono
        rw [hstep]
        exact h1
      · apply ih (ensure_step acc g) _ f hf2
        rw [hstep]
        rw [hstep] at hlen
        exact hlen
    · by_cases h2 : acc.st.mkdirOk g = true
      · have hstep : ensure_step acc g =
            { acc with
              st := { acc.st with dirs := fun q => q == g || acc.st.dirs q },
              created := acc.created ++ [g],
              events := acc.events ++ [Event.mkdir g] } := by
          unfold ensure_step; simp [h1, h2]
        rcases List.mem_cons.mp hf with rfl | hf2
        · apply ensure_foldl_dirs_mono
          rw [hstep]
          simp
        · apply ih (ensure_step acc g) _ f hf2
          rw [hstep]
          rw [hstep] at hlen
          exact hlen
      · have hstep : ensure_step acc g =
            { acc with
              failed := acc.failed ++ [g],
              events := acc.events ++ [Event.mkdir g] } := by
          unfold ensure_step; simp [h1, h2]
        have hmono := ensure_foldl_failed_length_mono l (ensure_step acc g)
        rw [hstep] at hmono hlen
        simp at hmono
        omega

theorem ensure_foldl_all_exist (l : List String) :
    ∀ acc : EnsureAcc, (∀ f ∈ l, acc.st.dirs f = true) →
      l.foldl ensure_step acc = { acc with existing := acc.existing ++ l } := by
  induction l with
  | nil => intro acc h; simp
  | cons f l ih =>
    intro acc h
    have hf : acc.st.dirs f = true := h f (by simp)
    have hstep : ensure_step acc f = { acc with existing := acc.existing ++ [f] } := by
      unfold ensure_step; simp [hf]
    rw [List.foldl_cons, hstep,
      ih { acc with existing := acc.existing ++ [f] }
        (fun g hg => h g (List.mem_cons_of_mem f hg))]
    simp

theorem ensure_foldl_events_mkdir (l : List String) :
    ∀ acc : EnsureAcc, (∀ e ∈ acc.events, ∃ p, e = Event.mkdir p) →
      ∀ e ∈ (l.foldl ensure_step acc).events, ∃ p, e = Event.mkdir p := by
  induction l with
  | nil => intro acc h; exact h
  | cons f l ih =>
    intro acc h
    rw [List.foldl_cons]
    apply ih
    intro e he
    rcases ensure_step_events acc f with hev | hev
    · exact h e (hev ▸ he)
    · rw [hev] at he
      rcases List.mem_append.mp he with he2 | he2
      · exact h e he2
      · exact ⟨f, by simpa using he2⟩

/-- C4: The folder ensurer is idempotent: if one run over a folder list
creates every absent folder successfully (empty failure list), a second run
over the same list performs zero `make_directory` calls, creates nothing and
reports every path as already existing; moreover the ensurer only ever
issues `mkdir` mutation calls (never delete or rename). -/
theorem create_folder_structure_idempotent (folders : List String) (st : DirState)
    (h : (create_folder_structure folders st).failed = []) :
    (create_folder_structure folders (create_folder_structure folders st).st).created = [] ∧
    (create_folder_structure folders (create_folder_structure folders st).st).events = [] ∧
    (create_folder_structure folders (create_folder_structure folders st).st).existing =
      folders ∧
    (∀ e ∈ (create_folder_structure folders st).events, ∃ p, e = Event.mkdir p) ∧
    (∀ e ∈ (create_folder_structure folders
        (create_folder_structure folders st).st).events, ∃ p, e = Event.mkdir p) := by
  have hdirs : ∀ f ∈ folders, (create_folder_structure folders st).st.dirs f = true := by
    apply ensure_foldl_no_fail_dirs
    simpa using congrArg List.length h
  have hrun2 : create_folder_structure folders (create_folder_structure folders st).st =
      ⟨(create_folder_structure folders st).st, [], [] ++ folders, [], []⟩ :=
    ensure_foldl_all_exist folders ⟨(create_folder_structure folders st).st, [], [], [], []⟩
      hdirs
  refine ⟨by rw [hrun2], by rw [hrun2], by rw [hrun2]; simp, ?_, ?_⟩
  · exact ensure_foldl_events_mkdir folders ⟨st, [], [], [], []⟩ (by intro e he; simp at he)
  · rw [hrun2]
    intro e he
    simp at he

/-- Witness for C4: running the ensurer on the fixed quick-create folder
list against an initially empty store where every creation succeeds. -/
def c4_state : DirState := { dirs := fun _ => false, mkdirOk := fun _ => true }

theorem create_folder_structure_idempotent_witness :
    (create_folder_structure quick_folders c4_state).failed = [] ∧
    (create_folder_structure quick_folders
        (create_folder_structure quick_folders c4_state).st).created = [] ∧
    (create_folder_structure quick_folders
        (create_folder_structure quick_folders c4_state).st).events = [] ∧
    (create_folder_structure quick_folders
        (create_folder_structure quick_folders c4_state).st).existing = quick_folders :=
  ⟨by decide,
   (create_folder_structure_idempotent quick_folders c4_state (by decide)).1,
   (create_folder_structure_idempotent quick_folders c4_state (by decide)).2.1,
   (create_folder_structure_idempotent quick_folders c4_state (by decide)).2.2.1⟩

/-- Concrete cleanup store for C5: the folder `/Game/DBV` exists and holds
exactly 11 records. -/
def c5_store : CleanupStore :=
  { dirExists := fun _ => true,
    assetsUnder := fun p =>
      if p == "/Game/DBV" then
        [⟨"/Game/DBV/A0", "A0", "Texture"⟩, ⟨"/Game/DBV/A1", "A1", "Texture"⟩,
         ⟨"/Game/DBV/A2", "A2", "Texture"⟩, ⟨"/Game/DBV/A3", "A3", "Texture"⟩,
         ⟨"/Game/DBV/A4", "A4", "Texture"⟩, ⟨"/Game/DBV/A5", "A5", "Texture"⟩,
         ⟨"/Game/DBV/A6", "A6", "Texture"⟩, ⟨"/Game/DBV/A7", "A7", "Texture"⟩,
         ⟨"/Game/DBV/A8", "A8", "Texture"⟩, ⟨"/Game/DBV/A9", "A9", "Texture"⟩,
         ⟨"/Game/DBV/A10", "A10", "Texture"⟩]
      else [],
    deleteOk := fun _ => true }

/-- Counterexample for C5: on a folder with 11 records the report lists no
asset names at all (the listing is gated on `asset_count <= 10`), so it does
not list the first 10 names as claimed. -/
theorem check_folder_empty_spec_counterexample :
    folder_report c5_store "/Game/DBV" = FolderReport.nonEmpty 11 [] ∧
    ((c5_store.assetsUnder "/Game/DBV").take 10).map (·.asset_name) ≠ [] := by decide

/-- C5 (amended): the emptiness check returns `some true` for every existing
folder with zero records and `none` for every folder whose directory does
not exist; and for an existing folder with 11 records the report carries the
count 11 and lists no asset names (names are only listed when
`0 < count ≤ 10`). -/
theorem check_folder_empty_spec :
    (∀ (store : CleanupStore) (f : String), store.dirExists f = true →
      store.assetsUnder f = [] → check_folder_empty store f = some true) ∧
    (∀ (store : CleanupStore) (f : String), store.dirExists f = false →
      check_folder_empty store f = none) ∧
    (∀ (store : CleanupStore) (f : String), store.dirExists f = true →
      (store.assetsUnder f).length = 11 →
      folder_report store f = FolderReport.nonEmpty 11 []) := by
  refine ⟨?_, ?_, ?_⟩
  · intro store f hd hl
    simp [check_folder_empty, hd, hl]
  · intro store f hd
    simp [check_folder_empty, hd]
  · intro store f hd hlen
    simp [folder_report, check_folder_empty, hd, hlen]

/-- Witness for C5: applying the amended statement to the concrete 11-record
store. -/
theorem check_folder_empty_spec_witness :
    (c5_store.dirExists "/Game/DBV" = true ∧
      (c5_store.assetsUnder "/Game/DBV").length = 11) ∧
    folder_report c5_store "/Game/DBV" = FolderReport.nonEmpty 11 [] :=
  ⟨⟨by decide, by decide⟩,
   check_folder_empty_spec.2.2 c5_store "/Game/DBV" (by decide) (by decide)⟩

/-- C6: For every folder whose computed redirector list has exactly 3
entries, the sweep issues exactly one consolidation call whose canonical
target is the first enumerated redirector, followed by one delete call per
redirector; the trace is the same whatever the store's delete outcomes, so a
raised delete on one redirector never prevents the remaining delete
attempts. -/
theorem fix_redirectors_three (store : CleanupStore) (folder : String)
    (r0 r1 r2 : String)
    (hdir : store.dirExists folder = true)
    (hreds : redirectors_in store folder = [r0, r1, r2]) :
    fix_redirectors_in_folder store folder =
      (3, [Event.consolidate r0 [r0, r1, r2],
           Event.delete r0, Event.delete r1, Event.delete r2]) := by
  unfold fix_redirectors_in_folder
  rw [hdir, hreds]
  simp

/-- Witness for C6: a concrete folder with three redirectors whose store
raises on the deletion of the middle one. -/
def c6_store : CleanupStore :=
  { dirExists := fun _ => true,
    assetsUnder := fun p =>
      if p == "/Game/DBV" then
        [⟨"/Game/DBV/R0", "R0", "ObjectRedirector"⟩,
         ⟨"/Game/DBV/R1", "R1", "ObjectRedirector"⟩,
         ⟨"/Game/DBV/R2", "R2", "ObjectRedirector"⟩]
      else [],
    deleteOk := fun p => ! (p == "/Game/DBV/R1") }

theorem fix_redirectors_three_witness :
    (c6_store.dirExists "/Game/DBV" = true ∧
      redirectors_in c6_store "/Game/DBV" =
        ["/Game/DBV/R0", "/Game/DBV/R1", "/Game/DBV/R2"]) ∧
    fix_redirectors_in_folder c6_store "/Game/DBV" =
      (3, [Event.consolidate "/Game/DBV/R0"
            ["/Game/DBV/R0", "/Game/DBV/R1", "/Game/DBV/R2"],
           Event.delete "/Game/DBV/R0", Event.delete "/Game/DBV/R1",
           Event.delete "/Game/DBV/R2"]) :=
  ⟨⟨by decide, by decide⟩,
   fix_redirectors_three c6_store "/Game/DBV" "/Game/DBV/R0" "/Game/DBV/R1" "/Game/DBV/R2"
     (by decide) (by decide)⟩

/-- Counterexample for C7: the full reorganization does not start with
folder creation; its phase sequence starts with the analysis phase (lines
314-318 run `analyze_current_structure` before `create_folder_structure`). -/
theorem execute_full_reorganization_order_counterexample :
    execute_full_reorganization_phases true ≠
      [Phase.createFolders, Phase.analyze, Phase.moveBlueprints, Phase.moveDbv,
       Phase.moveMaps] ∧
    execute_full_reorganization_phases true =
      [Phase.analyze, Phase.createFolders, Phase.moveBlueprints, Phase.moveDbv,
       Phase.moveMaps] := by decide

/-- C7 (amended): in every run of the full reorganization the phases execute
strictly sequentially in the fixed order: analysis first, then folder
creation, then blueprint moves, then the special-folder (DBV-to-External)
moves, then maps moves. -/
theorem execute_full_reorganization_order (dry_run : Bool) :
    (execute_full_reorganization_phases dry_run).take 5 =
      [Phase.analyze, Phase.createFolders, Phase.moveBlueprints, Phase.moveDbv,
       Phase.moveMaps] := by
  cases dry_run <;> decide

/-- Concrete store for the C8 witness: `/Game/DBV` exists and is non-empty. -/
def c8_store : Store :=
  { dirExists := fun _ => true,
    assetsUnder := fun p =>
      if p == "/Game/DBV" then [⟨"/Game/DBV/X", "X", "Texture"⟩] else [],
    renameOk := fun _ _ => true }

/-- C8: the `__main__` entry point of `reorganize_simple.py` prints the
"Running in DRY RUN mode..." banner and then invokes
`execute_reorganization` with `dry_run=False`; no execution path in that
entry point runs with `dry_run=True`, and `dry_run=False` does perform live
rename mutations whenever a source folder has assets. -/
theorem reorganize_simple_main_runs_live :
    reorganize_simple_main =
      [MainAction.printBanner "Running in DRY RUN mode...",
       MainAction.executeReorganization false] ∧
    (∀ d : Bool, MainAction.executeReorganization d ∈ reorganize_simple_main → d = false) ∧
    (∀ store : Store, store.dirExists "/Game/DBV" = true →
      store.assetsUnder "/Game/DBV" ≠ [] →
      (move_folder_contents store "/Game/DBV" "/Game/External/DBV" false).events ≠ []) := by
  refine ⟨rfl, ?_, ?_⟩
  · intro d hd
    simpa [reorganize_simple_main] using hd
  · intro store hd hne
    cases hl : store.assetsUnder "/Game/DBV" with
    | nil => exact absurd hl hne
    | cons a l =>
      rw [move_folder_contents_cons store "/Game/DBV" "/Game/External/DBV" false a l hd hl,
        mfc_foldl_live]
      simp

theorem reorganize_simple_main_runs_live_witness :
    ((MainAction.executeReorganization false ∈ reorganize_simple_main) ∧ false = false) ∧
    (c8_store.dirExists "/Game/DBV" = true ∧
      c8_store.assetsUnder "/Game/DBV" ≠ [] ∧
      (move_folder_contents c8_store "/Game/DBV" "/Game/External/DBV" false).events ≠ []) :=
  ⟨⟨by decide, reorganize_simple_main_runs_live.2.1 false (by decide)⟩,
   ⟨by decide, by decide,
    reorganize_simple_main_runs_live.2.2 c8_store (by decide) (by decide)⟩⟩

theorem move_blueprints_foldl_moves_eq (store : RegistryStore) (l : List AssetRecord) :
    ∀ acc1 acc2 : BpResult, acc1.moves = acc2.moves →
      (l.foldl (move_blueprints_step store true) acc1).moves =
      (l.foldl (move_blueprints_step store false) acc2).moves := by
  induction l with
  | nil => intro acc1 acc2 h; exact h
  | cons a l ih =>
    intro acc1 acc2 h
    rw [List.foldl_cons, List.foldl_cons]
    apply ih
    unfold move_blueprints_step
    by_cases h1 : (strContains a.package_name "/DBV/" ||
        strContains a.package_name "/External/") = true
    · simp [h1, h]
    · by_cases h2 : (["Core/Blueprints", "UI/", "Levels/"].any
          (fun target => strContains a.package_name target)) = true
      · simp [h1, h2, h]
      · simp [h1, h2, h, apply_ite BpResult.moves]

/-- C9: the list of `(source, target, category)` move plans computed by
`move_blueprints` is identical for `dry_run=True` and `dry_run=False` on the
same asset-registry query results: the flag only controls whether renames
are performed and errors collected. -/
theorem move_blueprints_plans_flag_independent (store : RegistryStore) :
    (move_blueprints store true).moves = (move_blueprints store false).moves := by
  unfold move_blueprints
  exact move_blueprints_foldl_moves_eq store (store.assetsByClass "Blueprint") ⟨[], [], []⟩
    ⟨[], [], []⟩ rfl

/-- C10: `classify_blueprint` is a total function whose result is always one
of exactly the three categories "player", "gameplay", "environment". -/
theorem classify_blueprint_range (name : String) :
    classify_blueprint name = "player" ∨ classify_blueprint name = "gameplay" ∨
      classify_blueprint name = "environment" := by
  unfold classify_blueprint
  cases hf : bp_classification.find? (rule_matches name) with
  | none => simp
  | some rule =>
    have hmem := List.mem_of_find?_eq_some hf
    simp only [bp_classification, List.mem_cons, List.not_mem_nil, or_false] at hmem
    rcases hmem with h | h | h <;> subst h <;> simp

end Wipeout
